import Mathlib

set_option maxRecDepth 8192

/-!
Verification of the small-caps text styler (src/small.py).

The program holds a fixed dictionary from lowercase Latin letters to
Unicode small-capital glyphs and one pure function `small_caps` that maps
each character of the input through the dictionary, lowercasing the
character first to form the lookup key and leaving the character unchanged
on a miss.  Two event handlers, `convertir` and `copiar`, connect the
function to an input field, an output field and the system clipboard.

Embedding: strings are Lean `String` (a list of Unicode scalar values,
matching Python codepoint strings); the dictionary lookup with default
becomes `mapaGet`; the UI-bound variables `entrada`, `resultado` and the
clipboard become the three fields of `UIState`, and each handler is a
function on that state.
-/

/-- The dictionary `mapa` of src/small.py, as the lookup-with-default
operation used at its only call site, `mapa.get(key, c)` with the default
supplied by the caller: `mapaGet k` returns `some` of the stored glyph
when `k` is one of the 26 lowercase-letter keys, and `none` otherwise. -/
def mapaGet (c : Char) : Option Char :=
  if c = 'a' then some 'ᴀ'
  else if c = 'b' then some 'ʙ'
  else if c = 'c' then some 'ᴄ'
  else if c = 'd' then some 'ᴅ'
  else if c = 'e' then some 'ᴇ'
  else if c = 'f' then some 'ꜰ'
  else if c = 'g' then some 'ɢ'
  else if c = 'h' then some 'ʜ'
  else if c = 'i' then some 'ɪ'
  else if c = 'j' then some 'ᴊ'
  else if c = 'k' then some 'ᴋ'
  else if c = 'l' then some 'ʟ'
  else if c = 'm' then some 'ᴍ'
  else if c = 'n' then some 'ɴ'
  else if c = 'o' then some 'ᴏ'
  else if c = 'p' then some 'ᴘ'
  else if c = 'q' then some 'ǫ'
  else if c = 'r' then some 'ʀ'
  else if c = 's' then some 's'
  else if c = 't' then some 'ᴛ'
  else if c = 'u' then some 'ᴜ'
  else if c = 'v' then some 'ᴠ'
  else if c = 'w' then some 'ᴡ'
  else if c = 'x' then some 'x'
  else if c = 'y' then some 'ʏ'
  else if c = 'z' then some 'ᴢ'
  else none

/-- Python `c.lower()` as it is used in `small_caps`: the result is only
ever consumed as a lookup key of `mapaGet`, whose keys are the ASCII
letters 97..122, so the model carries exactly the Unicode lowercase
mappings that can reach a key or a nearby codepoint and is the identity
elsewhere.  Covered exactly: ASCII uppercase 65..90 maps to 97..122;
U+212A KELVIN SIGN (8490) lowercases to ASCII 107, the letter k; the
Latin-1 uppercase range 192..222 minus the multiplication sign 215 maps
to 224..254.  Every remaining codepoint either lowercases to itself or
to a codepoint (or codepoint sequence, as for U+0130) outside 97..122,
so identity gives the same hit-or-miss behaviour and the same default as
the runtime tables. -/
def pyLower (c : Char) : Char :=
  if 65 ≤ c.toNat ∧ c.toNat ≤ 90 then Char.ofNat (c.toNat + 32)
  else if c.toNat = 8490 then 'k'
  else if 192 ≤ c.toNat ∧ c.toNat ≤ 222 ∧ c.toNat ≠ 215 then Char.ofNat (c.toNat + 32)
  else c

/-- One step of the generator `mapa.get(c.lower(), c)`: the glyph stored
for the lowercased character, or the original character on a miss. -/
def small_caps_char (c : Char) : Char := (mapaGet (pyLower c)).getD c

/-- The function `small_caps(texto)` of src/small.py:
join of `mapa.get(c.lower(), c)` over the characters of `texto`. -/
def small_caps (texto : String) : String :=
  String.mk (texto.data.map small_caps_char)

/-- The mutable interface state of the program: the two tkinter
StringVar fields `entrada` and `resultado` and the system clipboard. -/
structure UIState where
  entrada : String
  resultado : String
  clipboard : String

/-- The handler `convertir` of src/small.py: reads `entrada` and sets
`resultado` to `small_caps` of it. -/
def convertir (st : UIState) : UIState :=
  UIState.mk st.entrada (small_caps st.entrada) st.clipboard

/-- Effect of `root.clipboard_clear()`: the clipboard becomes empty. -/
def clipboard_clear (st : UIState) : UIState :=
  UIState.mk st.entrada st.resultado ""

/-- Effect of `root.clipboard_append(s)`: `s` is appended to the
clipboard contents. -/
def clipboard_append (s : String) (st : UIState) : UIState :=
  UIState.mk st.entrada st.resultado (st.clipboard ++ s)

/-- The handler `copiar` of src/small.py: clears the clipboard, then
appends the current value of `resultado`. -/
def copiar (st : UIState) : UIState :=
  clipboard_append (clipboard_clear st).resultado (clipboard_clear st)

lemma small_caps_singleton (c : Char) :
    small_caps (String.singleton c) = String.singleton (small_caps_char c) := rfl

lemma mapaGet_eq_none {c : Char} (h : ¬(97 ≤ c.toNat ∧ c.toNat ≤ 122)) :
    mapaGet c = none := by
  have k : ∀ d : Char, 97 ≤ d.toNat → d.toNat ≤ 122 → ¬(c = d) := by
    intro d h1 h2 he
    exact h (by rw [he]; exact ⟨h1, h2⟩)
  unfold mapaGet
  rw [if_neg (k 'a' (by decide) (by decide)), if_neg (k 'b' (by decide) (by decide)),
    if_neg (k 'c' (by decide) (by decide)), if_neg (k 'd' (by decide) (by decide)),
    if_neg (k 'e' (by decide) (by decide)), if_neg (k 'f' (by decide) (by decide)),
    if_neg (k 'g' (by decide) (by decide)), if_neg (k 'h' (by decide) (by decide)),
    if_neg (k 'i' (by decide) (by decide)), if_neg (k 'j' (by decide) (by decide)),
    if_neg (k 'k' (by decide) (by decide)), if_neg (k 'l' (by decide) (by decide)),
    if_neg (k 'm' (by decide) (by decide)), if_neg (k 'n' (by decide) (by decide)),
    if_neg (k 'o' (by decide) (by decide)), if_neg (k 'p' (by decide) (by decide)),
    if_neg (k 'q' (by decide) (by decide)), if_neg (k 'r' (by decide) (by decide)),
    if_neg (k 's' (by decide) (by decide)), if_neg (k 't' (by decide) (by decide)),
    if_neg (k 'u' (by decide) (by decide)), if_neg (k 'v' (by decide) (by decide)),
    if_neg (k 'w' (by decide) (by decide)), if_neg (k 'x' (by decide) (by decide)),
    if_neg (k 'y' (by decide) (by decide)), if_neg (k 'z' (by decide) (by decide))]

lemma pyLower_eq_self {c : Char} (h1 : ¬(65 ≤ c.toNat ∧ c.toNat ≤ 90))
    (h2 : c.toNat ≠ 8490)
    (h3 : ¬(192 ≤ c.toNat ∧ c.toNat ≤ 222 ∧ c.toNat ≠ 215)) : pyLower c = c := by
  unfold pyLower
  rw [if_neg h1, if_neg h2, if_neg h3]

lemma sc_char_miss {c : Char} (h : ¬(97 ≤ c.toNat ∧ c.toNat ≤ 122))
    (h1 : ¬(65 ≤ c.toNat ∧ c.toNat ≤ 90)) (h2 : c.toNat ≠ 8490)
    (h3 : ¬(192 ≤ c.toNat ∧ c.toNat ≤ 222 ∧ c.toNat ≠ 215)) :
    small_caps_char c = c := by
  unfold small_caps_char
  rw [pyLower_eq_self h1 h2 h3, mapaGet_eq_none h]
  rfl

lemma hit_lower : ∀ n, n < 123 → 97 ≤ n →
    (mapaGet (pyLower (Char.ofNat n))).isSome = true := by decide

lemma hit_upper : ∀ n, n < 91 → 65 ≤ n →
    (mapaGet (pyLower (Char.ofNat n))).isSome = true := by decide

lemma sc_char_idem (c : Char) :
    small_caps_char (small_caps_char c) = small_caps_char c := by
  by_cases h1 : 65 ≤ c.toNat ∧ c.toNat ≤ 90
  · have hb : ∀ n, n < 91 → 65 ≤ n →
        small_caps_char (small_caps_char (Char.ofNat n)) =
          small_caps_char (Char.ofNat n) := by decide
    have hc := hb c.toNat (by omega) h1.1
    rwa [Char.ofNat_toNat] at hc
  · by_cases h2 : c.toNat = 8490
    · have hb : small_caps_char (small_caps_char (Char.ofNat 8490)) =
          small_caps_char (Char.ofNat 8490) := by decide
      rw [← Char.ofNat_toNat c, h2]
      exact hb
    · by_cases h3 : 192 ≤ c.toNat ∧ c.toNat ≤ 222 ∧ c.toNat ≠ 215
      · have hb : ∀ n, n < 223 → 192 ≤ n →
            small_caps_char (small_caps_char (Char.ofNat n)) =
              small_caps_char (Char.ofNat n) := by decide
        have hc := hb c.toNat (by omega) h3.1
        rwa [Char.ofNat_toNat] at hc
      · by_cases h4 : 97 ≤ c.toNat ∧ c.toNat ≤ 122
        · have hb : ∀ n, n < 123 → 97 ≤ n →
              small_caps_char (small_caps_char (Char.ofNat n)) =
                small_caps_char (Char.ofNat n) := by decide
          have hc := hb c.toNat (by omega) h4.1
          rwa [Char.ofNat_toNat] at hc
        · have e : small_caps_char c = c := sc_char_miss h4 h1 h2 h3
          rw [e, e]

/-- Claim C1: for every Latin letter (lowercase 97..122 or uppercase
65..90), the table lookup at the lowercased character succeeds and
`small_caps` emits exactly the stored glyph, regardless of input case. -/
theorem claim_C1_letter_lookup (c : Char)
    (h : (97 ≤ c.toNat ∧ c.toNat ≤ 122) ∨ (65 ≤ c.toNat ∧ c.toNat ≤ 90)) :
    ∃ v, mapaGet (pyLower c) = some v ∧
      small_caps (String.singleton c) = String.singleton v := by
  have hs : (mapaGet (pyLower c)).isSome = true := by
    cases h with
    | inl h =>
      have hc := hit_lower c.toNat (by omega) h.1
      rwa [Char.ofNat_toNat] at hc
    | inr h =>
      have hc := hit_upper c.toNat (by omega) h.1
      rwa [Char.ofNat_toNat] at hc
  obtain ⟨v, hv⟩ := Option.isSome_iff_exists.mp hs
  refine ⟨v, hv, ?_⟩
  rw [small_caps_singleton]
  unfold small_caps_char
  rw [hv]
  rfl

/-- Witness for C1 at the concrete uppercase input A. -/
theorem claim_C1_letter_lookup_witness :
    ∃ v, mapaGet (pyLower 'A') = some v ∧
      small_caps (String.singleton 'A') = String.singleton v :=
  claim_C1_letter_lookup 'A' (Or.inr (by decide))

/-- Counterexample to claim C2 as stated: U+212A KELVIN SIGN (codepoint
8490) is not a Latin letter a-z or A-Z, yet it does not pass through
unchanged: Unicode lowercasing sends it to the letter k, so `small_caps`
emits the small-capital glyph for k instead of the input character. -/
theorem claim_C2_counterexample :
    ¬((97 ≤ (Char.ofNat 8490).toNat ∧ (Char.ofNat 8490).toNat ≤ 122) ∨
        (65 ≤ (Char.ofNat 8490).toNat ∧ (Char.ofNat 8490).toNat ≤ 90)) ∧
      small_caps (String.singleton (Char.ofNat 8490)) = String.singleton 'ᴋ' ∧
      small_caps (String.singleton (Char.ofNat 8490)) ≠
        String.singleton (Char.ofNat 8490) := by decide

/-- Claim C2 as amended: every character that is neither a Latin letter
(a-z, A-Z) nor U+212A KELVIN SIGN passes through `small_caps`
unchanged.  The Kelvin sign is the single exception, because it is the
only non-ASCII codepoint whose Unicode lowercase form is one of the 26
table keys. -/
theorem claim_C2_passthrough (c : Char)
    (h : ¬((97 ≤ c.toNat ∧ c.toNat ≤ 122) ∨ (65 ≤ c.toNat ∧ c.toNat ≤ 90)))
    (hk : c.toNat ≠ 8490) :
    small_caps (String.singleton c) = String.singleton c := by
  have hlow : ¬(97 ≤ c.toNat ∧ c.toNat ≤ 122) := fun hc => h (Or.inl hc)
  have hup : ¬(65 ≤ c.toNat ∧ c.toNat ≤ 90) := fun hc => h (Or.inr hc)
  rw [small_caps_singleton]
  by_cases h3 : 192 ≤ c.toNat ∧ c.toNat ≤ 222 ∧ c.toNat ≠ 215
  · have hb : ∀ n, n < 223 → 192 ≤ n →
        small_caps_char (Char.ofNat n) = Char.ofNat n := by decide
    have hc := hb c.toNat (by omega) h3.1
    rw [Char.ofNat_toNat] at hc
    rw [hc]
  · rw [sc_char_miss hlow hup hk h3]

/-- Witness for the amended C2 at the concrete digit input 1. -/
theorem claim_C2_passthrough_witness :
    small_caps (String.singleton '1') = String.singleton '1' :=
  claim_C2_passthrough '1' (by decide) (by decide)

/-- Claim C3: `small_caps` preserves the length of its input in
characters; each input character yields exactly one output character. -/
theorem claim_C3_length_preserved (s : String) :
    (small_caps s).length = s.length := by
  unfold small_caps
  rw [String.length_mk, List.length_map]
  rfl

/-- Claim C4: the three concrete examples of the specification. -/
theorem claim_C4_examples :
    small_caps "" = "" ∧
      small_caps "Hello World" = "ʜᴇʟʟᴏ ᴡᴏʀʟᴅ" ∧
      small_caps "abc123!" = "ᴀʙᴄ123!" := by decide

/-- Claim C5: `copiar` clears the clipboard and then appends the current
value of the output field, so afterwards the clipboard holds exactly that
value, whatever it held before; in particular with output ᴀʙᴄ and
arbitrary prior clipboard contents the clipboard ends up exactly ᴀʙᴄ. -/
theorem claim_C5_copy_replaces_clipboard :
    (∀ st : UIState, (copiar st).clipboard = st.resultado) ∧
      (copiar (UIState.mk "" "ᴀʙᴄ" "prior contents")).clipboard = "ᴀʙᴄ" := by
  constructor
  · intro st
    show "" ++ st.resultado = st.resultado
    cases st.resultado
    rfl
  · rfl

/-- Claim C6: the table maps the letters s and x to themselves, so for
these two letters, in either case, `small_caps` emits the plain lowercase
ASCII letter rather than a distinct small-capital glyph. -/
theorem claim_C6_s_x_identity :
    mapaGet 's' = some 's' ∧ mapaGet 'x' = some 'x' ∧
      small_caps "s" = "s" ∧ small_caps "S" = "s" ∧
      small_caps "x" = "x" ∧ small_caps "X" = "x" := by decide

/-- Claim C7: `small_caps` works character by character with no state
across characters, hence distributes over string concatenation. -/
theorem claim_C7_append_homomorphism (s t : String) :
    small_caps (s ++ t) = small_caps s ++ small_caps t := by
  apply String.ext
  simp [small_caps, String.data_append]

/-- Claim C8: `small_caps` is a total pure function on strings: it is
defined on every input (its embedding is a total Lean function, with no
error or exception path in the source to model), and equal inputs give
equal outputs; it is defined on the empty string in particular. -/
theorem claim_C8_total_pure :
    (∀ s : String, ∃ r : String, small_caps s = r) ∧
      (∀ s t : String, s = t → small_caps s = small_caps t) ∧
      small_caps "" = "" := by
  refine ⟨fun s => ⟨small_caps s, rfl⟩, fun s t h => by rw [h], rfl⟩

/-- Witness for C8: determinism applied at a concrete input. -/
theorem claim_C8_total_pure_witness :
    small_caps "Hola" = small_caps "Hola" :=
  claim_C8_total_pure.2.1 "Hola" "Hola" rfl

/-- Claim C9: `convertir` sets the output field to `small_caps` of the
input field and changes nothing else, and `copiar`, the only other
handler, never writes the input or output fields. -/
theorem claim_C9_convert_frame :
    (∀ st : UIState,
        convertir st = UIState.mk st.entrada (small_caps st.entrada) st.clipboard) ∧
      (∀ st : UIState,
        (copiar st).resultado = st.resultado ∧ (copiar st).entrada = st.entrada) :=
  ⟨fun _ => rfl, fun _ => ⟨rfl, rfl⟩⟩

/-- Claim C10: `small_caps` is idempotent: no character it ever emits is
itself transformed further, because no emitted glyph lowercases to a
table key other than s and x, and those two map to themselves. -/
theorem claim_C10_idempotent (s : String) :
    small_caps (small_caps s) = small_caps s := by
  apply String.ext
  show List.map small_caps_char (List.map small_caps_char s.data) =
    List.map small_caps_char s.data
  rw [List.map_map]
  exact List.map_congr_left (fun a _ => sc_char_idem a)
